import Mathlib

/-!
Shallow embedding of `src/contract/src/lib.rs` (NEAR `TaskManager` contract).

The source file is pseudo-Rust that does not compile as written; where a line
is ill-typed or references an undeclared variable, the embedding documents the
choice made right at the definition.  Conventions used throughout:

* `near_sdk::collections::UnorderedMap<u64, T>` is embedded as an association
  list `List (Nat × T)` whose `insert` overwrites an existing key in place and
  otherwise appends, so the key list stays duplicate-free and `len()` is the
  entry count, exactly like the SDK map.
* `near_sdk::collections::Vector<u64>` (used as the two queues) is a
  `List Nat`; `push` appends at the tail; the source's
  `remove(iter().position(|x| *x == id).unwrap())` (delete the first
  occurrence of the value, shifting the rest) is `List.erase`.
* `env::block_timestamp()` and `env::predecessor_account_id()` are external
  collaborator inputs; they are passed to each operation as explicit `now` /
  `caller` arguments.
* a Rust `assert!`/`expect`/`unwrap` panic aborts the NEAR transaction with
  no state change, so each operation is `TaskManager → args → Except Err TaskManager`
  and a panic is `.error e` (no successor state exists).
* `Promise::new(account).transfer(amount)` is recorded by appending
  `(account, amount)` to a `transfers` log carried in the state.
-/

namespace Contract

/-- Association-list embedding of `UnorderedMap<u64, T>`. -/
abbrev AssocMap (α : Type) := List (Nat × α)

/-- Point lookup, `UnorderedMap::get`. -/
def mapGet {α : Type} (m : AssocMap α) (k : Nat) : Option α :=
  (m.find? (fun p => p.1 == k)).map Prod.snd

/-- Insert, `UnorderedMap::insert`: overwrite an existing key in place
(keys are unique, so replacing the first occurrence is overwriting the
key), otherwise append the new entry at the end. -/
def mapInsert {α : Type} (m : AssocMap α) (k : Nat) (v : α) : AssocMap α :=
  match m with
  | [] => [(k, v)]
  | p :: rest => if p.1 == k then (k, v) :: rest else p :: mapInsert rest k v

/-- Entry count, `UnorderedMap::len`. -/
def mapLen {α : Type} (m : AssocMap α) : Nat := m.length

/-- Queue removal in the source:
`q.remove(q.iter().position(|x| *x == id).unwrap())`, i.e. delete the first
occurrence of `id` (callers guard with `contains`, so `position` succeeds). -/
def removeFirst (q : List Nat) (id : Nat) : List Nat := q.erase id

/-- The `Task` record (lib.rs lines 13-22).  The source declares
`descriptions: String`, but initialises it from an undeclared variable
(line 55), writes the `";"`-join of the submitted `[Option<String>; 4]`
into it (lines 93-100) and reads it element-wise as options
(`task.descriptions.iter().all(|d| d.is_some())`, line 139).  The only type
under which the element-wise read type-checks is a sequence of optional
strings, so the field is embedded as `List (Option String)`: `publish`
starts it empty and `submit_task` stores the submitted option array (whose
`";"`-join of the present values is what the source would render). -/
structure Task where
  image_url : String
  descriptions : List (Option String)
  assigned_to : Option String
  assigned_at : Option Nat
  reviewed_by : Option String
  reviewed_at : Option Nat
  is_completed : Bool
deriving Repr, DecidableEq

/-- The `ReviewTask` record (lib.rs lines 25-31).  The source declares
`reviewed_by: String` and `reviewed_at: u64`, yet every construction writes
`None` into both (lines 80-81, 111-112) and `review_task` tests
`reviewed_by.is_none()` and assigns `Some(...)` (lines 133-135); the only
type consistent with those uses is optional, so both fields are embedded as
options. -/
structure ReviewTask where
  task_id : Nat
  reviewed_by : Option String
  reviewed_at : Option Nat
  is_accepted : Bool
deriving Repr, DecidableEq

/-- Panic messages raised by the contract's `assert!`/`expect`/`unwrap`
calls, one constructor per distinct abort site:
`taskNotInQueue` = "Task not in queue" (line 70),
`taskAlreadyAssigned` = "Task already assigned" (line 72),
`invalidTaskId` = "Invalid task ID" (line 90),
`notAssignee` = "You are not assigned to this task" (line 91),
`alreadyCompleted` = "Task is already completed" (line 92),
`reviewNotInQueue` = "Review task not in queue" (lines 121, 131),
`reviewAlreadyAssigned` = "Review task already assigned" (line 133),
`unwrapNone` = a bare `unwrap()` on a missing record. -/
inductive Err where
  | taskNotInQueue
  | taskAlreadyAssigned
  | invalidTaskId
  | notAssignee
  | alreadyCompleted
  | reviewNotInQueue
  | reviewAlreadyAssigned
  | unwrapNone
deriving Repr, DecidableEq

/-- Contract state (lib.rs lines 36-44), plus a `transfers` log recording
every `Promise::new(account).transfer(amount)` the contract issues, so that
settlement behaviour is observable in the embedding. -/
structure TaskManager where
  tasks : AssocMap Task
  review_tasks : AssocMap ReviewTask
  task_queue : List Nat
  review_queue : List Nat
  task_counter : Nat
  review_counter : Nat
  payout_account : String
  transfers : List (String × Nat)
deriving Repr, DecidableEq

/-- One NEAR in yoctoNEAR (lib.rs line 142). -/
def payout_amount : Nat := 1000000000000000000000000

/-- Operation `add_task` (lib.rs lines 51-66), the spec's `publish`.  The constructed
task's `descriptions` field reads an undeclared variable `descriptions`
(line 55); per the only coherent reading (the spec's "empty until
submission") it starts empty.  The function's body ends in `task_id`
although the signature returns `()` (another source slip); the id is
returned, matching the spec's `publish(imageUrl) -> taskId`. -/
def add_task (st : TaskManager) (image_url : String) : TaskManager × Nat :=
  let task_id := st.task_counter
  let task : Task :=
    { image_url := image_url, descriptions := [], assigned_to := none,
      assigned_at := none, reviewed_by := none, reviewed_at := none,
      is_completed := false }
  ({ st with tasks := mapInsert st.tasks task_id task,
             task_queue := st.task_queue ++ [task_id],
             task_counter := st.task_counter + 1 },
   task_id)

/-- Operation `assign_task` (lib.rs lines 69-86).  Note that besides assigning the
task it also creates a `ReviewTask` keyed by `review_counter`, pushes that
id onto the review queue and bumps the counter (lines 77-85) — before any
submission has happened. -/
def assign_task (st : TaskManager) (task_id : Nat) (user_account : String)
    (now : Nat) : Except Err TaskManager :=
  if st.task_queue.contains task_id then
    match mapGet st.tasks task_id with
    | none => .error .unwrapNone
    | some task =>
      if task.assigned_to.isNone then
        let task1 : Task :=
          { task with assigned_to := some user_account, assigned_at := some now }
        let rv : ReviewTask :=
          { task_id := task_id, reviewed_by := none, reviewed_at := none,
            is_accepted := false }
        .ok { st with
                tasks := mapInsert st.tasks task_id task1,
                task_queue := removeFirst st.task_queue task_id,
                review_queue := st.review_queue ++ [st.review_counter],
                review_tasks := mapInsert st.review_tasks st.review_counter rv,
                review_counter := st.review_counter + 1 }
      else .error .taskAlreadyAssigned
  else .error .taskNotInQueue

/-- Operation `submit_task` (lib.rs lines 89-117).  `caller` is
`env::predecessor_account_id()`.  The fresh review id is
`self.review_tasks.len()` (line 108), not `review_counter`.  The source
stores the `";"`-join of the present descriptions into the task; per the
embedding of `Task.descriptions` the submitted option array itself is
stored (see `Task`). -/
def submit_task (st : TaskManager) (caller : String) (task_id : Nat)
    (descriptions : List (Option String)) : Except Err TaskManager :=
  match mapGet st.tasks task_id with
  | none => .error .invalidTaskId
  | some task =>
    if task.assigned_to = some caller then
      if task.is_completed then .error .alreadyCompleted
      else
        let updated_task : Task :=
          { image_url := task.image_url, descriptions := descriptions,
            assigned_to := task.assigned_to, assigned_at := task.assigned_at,
            reviewed_by := task.reviewed_by, reviewed_at := task.reviewed_at,
            is_completed := true }
        let review_task_id := mapLen st.review_tasks
        let rv : ReviewTask :=
          { task_id := task_id, reviewed_by := none, reviewed_at := none,
            is_accepted := false }
        .ok { st with
                tasks := mapInsert st.tasks task_id updated_task,
                review_tasks := mapInsert st.review_tasks review_task_id rv,
                review_queue := st.review_queue ++ [review_task_id] }
    else .error .notAssignee

/-- Operation `assign_review_task` (lib.rs lines 120-127).  There is no check of
`reviewed_by` here: whatever its current value, it is overwritten with the
new reviewer and the id is removed (first occurrence) from the review
queue. -/
def assign_review_task (st : TaskManager) (review_task_id : Nat)
    (user_account : String) (now : Nat) : Except Err TaskManager :=
  if st.review_queue.contains review_task_id then
    match mapGet st.review_tasks review_task_id with
    | none => .error .unwrapNone
    | some rv =>
      let rv1 : ReviewTask :=
        { rv with reviewed_by := some user_account, reviewed_at := some now }
      .ok { st with
              review_tasks := mapInsert st.review_tasks review_task_id rv1,
              review_queue := removeFirst st.review_queue review_task_id }
  else .error .reviewNotInQueue

/-- Operation `review_task` (lib.rs lines 130-149), the spec's `adjudicate`.
Faithful to the source: it requires the review id to be in the review
queue and `reviewed_by` to be *unset* (line 133 — so an assigned review can
never be adjudicated); it sets `reviewed_by` from `user_account`, a
variable that is undeclared in the source — modelled as the caller's
identity (the spec's "calling reviewer"), passed as the `caller` argument;
the `is_accepted` parameter is never used — acceptance is decided by
`task.descriptions.iter().all(|d| d.is_some())` (line 139); on acceptance
it transfers `payout_amount` to `payout_account`; otherwise it pushes the
*review* id back onto the *review* queue (line 147) — the task queue is
never touched. -/
def review_task (st : TaskManager) (review_task_id : Nat) (caller : String)
    (now : Nat) (is_accepted : Bool) : Except Err TaskManager :=
  if st.review_queue.contains review_task_id then
    match mapGet st.review_tasks review_task_id with
    | none => .error .unwrapNone
    | some rv =>
      if rv.reviewed_by.isNone then
        let rv1 : ReviewTask :=
          { rv with reviewed_by := some caller, reviewed_at := some now }
        let st1 : TaskManager :=
          { st with
              review_tasks := mapInsert st.review_tasks review_task_id rv1,
              review_queue := removeFirst st.review_queue review_task_id }
        match mapGet st1.tasks rv.task_id with
        | none => .error .unwrapNone
        | some task =>
          if task.descriptions.all (fun d => d.isSome) then
            let rv2 : ReviewTask := { rv1 with is_accepted := true }
            .ok { st1 with
                    review_tasks := mapInsert st1.review_tasks review_task_id rv2,
                    transfers := st1.transfers ++ [(st1.payout_account, payout_amount)] }
          else
            .ok { st1 with
                    review_tasks := mapInsert st1.review_tasks review_task_id rv1,
                    review_queue := st1.review_queue ++ [review_task_id] }
      else .error .reviewAlreadyAssigned
  else .error .reviewNotInQueue

/-- View `get_review_queue` (lib.rs lines 152-154), the spec's
`reviewQueueSnapshot`. -/
def get_review_queue (st : TaskManager) : List Nat := st.review_queue

/-- View `get_task` (lib.rs lines 157-159). -/
def get_task (st : TaskManager) (task_id : Nat) : Option Task :=
  mapGet st.tasks task_id

/-- View `get_review_task` (lib.rs lines 162-164). -/
def get_review_task (st : TaskManager) (review_task_id : Nat) : Option ReviewTask :=
  mapGet st.review_tasks review_task_id

/-- View `get_task_queue_len` (lib.rs lines 167-169). -/
def get_task_queue_len (st : TaskManager) : Nat := st.task_queue.length

/-- View `get_review_queue_len` (lib.rs lines 172-174). -/
def get_review_queue_len (st : TaskManager) : Nat := st.review_queue.length

/-- Modelled from the spec: the source exposes no task-queue snapshot
accessor (only `get_review_queue` and the two length getters exist), while
the spec's interface lists `taskQueueSnapshot() -> sequence<u64>`, "an
ordered sequence of ids, front to back".  It is the evident projection of
the task queue. -/
def taskQueueSnapshot (st : TaskManager) : List Nat := st.task_queue

/-- Reachable contract states: the empty deployment (the source has no
initialiser; `payout_account` is deployment configuration) followed by any
sequence of successful operations, each with arbitrary collaborator inputs
(caller identity, clock). -/
inductive Reachable : TaskManager → Prop where
  | init (acct : String) :
      Reachable ⟨[], [], [], [], 0, 0, acct, []⟩
  | publish {st st' : TaskManager} {url : String} {id : Nat} :
      Reachable st → add_task st url = (st', id) → Reachable st'
  | assign {st st' : TaskManager} {id : Nat} {w : String} {now : Nat} :
      Reachable st → assign_task st id w now = .ok st' → Reachable st'
  | submit {st st' : TaskManager} {caller : String} {id : Nat}
      {descs : List (Option String)} :
      Reachable st → submit_task st caller id descs = .ok st' → Reachable st'
  | assignReview {st st' : TaskManager} {r : Nat} {w : String} {now : Nat} :
      Reachable st → assign_review_task st r w now = .ok st' → Reachable st'
  | adjudicate {st st' : TaskManager} {r : Nat} {c : String} {now : Nat}
      {b : Bool} :
      Reachable st → review_task st r c now b = .ok st' → Reachable st'

/-! ### Association-map lemmas -/

theorem mapGet_cons {α : Type} (p : Nat × α) (m : AssocMap α) (k : Nat) :
    mapGet (p :: m) k = if p.1 = k then some p.2 else mapGet m k := by
  unfold mapGet
  by_cases h : p.1 = k
  · rw [List.find?_cons_of_pos _ (by simp [h])]
    simp [h]
  · rw [List.find?_cons_of_neg _ (by simp [h])]
    simp [h]

theorem mapGet_mapInsert_self {α : Type} (m : AssocMap α) (k : Nat) (v : α) :
    mapGet (mapInsert m k v) k = some v := by
  induction m with
  | nil => simp [mapInsert, mapGet_cons]
  | cons p rest ih =>
    by_cases h : p.1 = k
    · simp [mapInsert, h, mapGet_cons]
    · simp [mapInsert, h, mapGet_cons, ih]

theorem mapGet_mapInsert_ne {α : Type} (m : AssocMap α) {k k' : Nat} (v : α)
    (h : k' ≠ k) : mapGet (mapInsert m k v) k' = mapGet m k' := by
  induction m with
  | nil => simp [mapInsert, mapGet_cons, mapGet, Ne.symm h]
  | cons p rest ih =>
    by_cases hp : p.1 = k
    · simp [mapInsert, hp, mapGet_cons, Ne.symm h]
    · simp [mapInsert, hp, mapGet_cons, ih]

theorem mapInsert_keys_of_mem {α : Type} {m : AssocMap α} {k : Nat} (v : α)
    (h : k ∈ m.map Prod.fst) :
    (mapInsert m k v).map Prod.fst = m.map Prod.fst := by
  induction m with
  | nil => simp at h
  | cons p rest ih =>
    by_cases hp : p.1 = k
    · simp [mapInsert, hp]
    · have : k ∈ rest.map Prod.fst := by
        rcases (by simpa using h) with h1 | h1
        · exact absurd h1.symm hp
        · simpa using h1
      simp [mapInsert, hp, ih this]

theorem mapInsert_keys_of_not_mem {α : Type} {m : AssocMap α} {k : Nat} (v : α)
    (h : k ∉ m.map Prod.fst) :
    (mapInsert m k v).map Prod.fst = m.map Prod.fst ++ [k] := by
  induction m with
  | nil => simp [mapInsert]
  | cons p rest ih =>
    have hp : ¬ p.1 = k := by
      intro hh
      exact h (by simp [hh])
    have : k ∉ rest.map Prod.fst := by
      intro hh
      exact h (by simp [hh])
    simp [mapInsert, hp, ih this]

theorem mapLen_mapInsert_of_mem {α : Type} {m : AssocMap α} {k : Nat} (v : α)
    (h : k ∈ m.map Prod.fst) : mapLen (mapInsert m k v) = mapLen m := by
  have := congrArg List.length (mapInsert_keys_of_mem v h)
  simpa [mapLen] using this

theorem mapLen_mapInsert_of_not_mem {α : Type} {m : AssocMap α} {k : Nat} (v : α)
    (h : k ∉ m.map Prod.fst) : mapLen (mapInsert m k v) = mapLen m + 1 := by
  have := congrArg List.length (mapInsert_keys_of_not_mem v h)
  simpa [mapLen] using this

theorem mapGet_some_key_mem {α : Type} {m : AssocMap α} {k : Nat} {v : α}
    (h : mapGet m k = some v) : k ∈ m.map Prod.fst := by
  induction m with
  | nil => simp [mapGet] at h
  | cons p rest ih =>
    rw [mapGet_cons] at h
    by_cases hp : p.1 = k
    · simp [hp]
    · simp [hp] at h
      simp [ih h]

/-! ### Success and failure characterizations of the operations -/

theorem assign_task_ok {st st' : TaskManager} {id : Nat} {w : String} {now : Nat}
    (h : assign_task st id w now = .ok st') :
    ∃ task, id ∈ st.task_queue ∧
      mapGet st.tasks id = some task ∧ task.assigned_to = none ∧
      st' = { st with
                tasks := mapInsert st.tasks id
                  { task with assigned_to := some w, assigned_at := some now },
                task_queue := removeFirst st.task_queue id,
                review_queue := st.review_queue ++ [st.review_counter],
                review_tasks := mapInsert st.review_tasks st.review_counter
                  ⟨id, none, none, false⟩,
                review_counter := st.review_counter + 1 } := by
  unfold assign_task at h
  split at h
  case isTrue hq =>
    split at h
    case h_1 => simp at h
    case h_2 task hg =>
      split at h
      case isTrue ha =>
        exact ⟨task, List.elem_iff.mp hq, hg, Option.isNone_iff_eq_none.mp ha,
          (Except.ok.inj h).symm⟩
      case isFalse => simp at h
  case isFalse => simp at h

theorem assign_task_error_of_not_queued {st : TaskManager} {id : Nat}
    (w : String) (now : Nat) (h : id ∉ st.task_queue) :
    assign_task st id w now = .error .taskNotInQueue := by
  simp [assign_task, h]

theorem submit_task_ok {st st' : TaskManager} {caller : String} {id : Nat}
    {descs : List (Option String)}
    (h : submit_task st caller id descs = .ok st') :
    ∃ task, mapGet st.tasks id = some task ∧
      task.assigned_to = some caller ∧ task.is_completed = false ∧
      st' = { st with
                tasks := mapInsert st.tasks id
                  { image_url := task.image_url, descriptions := descs,
                    assigned_to := task.assigned_to,
                    assigned_at := task.assigned_at,
                    reviewed_by := task.reviewed_by,
                    reviewed_at := task.reviewed_at, is_completed := true },
                review_tasks := mapInsert st.review_tasks
                  (mapLen st.review_tasks) ⟨id, none, none, false⟩,
                review_queue := st.review_queue ++ [mapLen st.review_tasks] } := by
  unfold submit_task at h
  split at h
  case h_1 => simp at h
  case h_2 task hg =>
    split at h
    case isTrue ha =>
      split at h
      case isTrue => simp at h
      case isFalse hc =>
        exact ⟨task, hg, ha, by simpa using hc, (Except.ok.inj h).symm⟩
    case isFalse => simp at h

theorem assign_review_task_ok {st st' : TaskManager} {r : Nat} {w : String}
    {now : Nat} (h : assign_review_task st r w now = .ok st') :
    ∃ rv, r ∈ st.review_queue ∧
      mapGet st.review_tasks r = some rv ∧
      st' = { st with
                review_tasks := mapInsert st.review_tasks r
                  { rv with reviewed_by := some w, reviewed_at := some now },
                review_queue := removeFirst st.review_queue r } := by
  unfold assign_review_task at h
  split at h
  case isTrue hq =>
    split at h
    case h_1 => simp at h
    case h_2 rv hg => exact ⟨rv, List.elem_iff.mp hq, hg, (Except.ok.inj h).symm⟩
  case isFalse => simp at h

theorem review_task_ok {st st' : TaskManager} {r : Nat} {c : String} {now : Nat}
    {b : Bool} (h : review_task st r c now b = .ok st') :
    ∃ rv, r ∈ st.review_queue ∧
      mapGet st.review_tasks r = some rv ∧ rv.reviewed_by = none ∧
      ∃ task, mapGet st.tasks rv.task_id = some task ∧
        ((task.descriptions.all (fun d => d.isSome) = true ∧
          st' = { st with
                    review_tasks := mapInsert
                      (mapInsert st.review_tasks r
                        { rv with reviewed_by := some c, reviewed_at := some now }) r
                      { rv with reviewed_by := some c, reviewed_at := some now,
                                is_accepted := true },
                    review_queue := removeFirst st.review_queue r,
                    transfers := st.transfers ++ [(st.payout_account, payout_amount)] }) ∨
         (task.descriptions.all (fun d => d.isSome) = false ∧
          st' = { st with
                    review_tasks := mapInsert
                      (mapInsert st.review_tasks r
                        { rv with reviewed_by := some c, reviewed_at := some now }) r
                      { rv with reviewed_by := some c, reviewed_at := some now },
                    review_queue := removeFirst st.review_queue r ++ [r] })) := by
  unfold review_task at h
  split at h
  case isTrue hq =>
    split at h
    case h_1 => simp at h
    case h_2 rv hg =>
      split at h
      case isTrue ha =>
        dsimp only at h
        cases ht : mapGet st.tasks rv.task_id with
        | none => rw [ht] at h; simp at h
        | some task =>
          rw [ht] at h
          dsimp only at h
          refine ⟨rv, List.elem_iff.mp hq, hg, Option.isNone_iff_eq_none.mp ha,
            task, ht, ?_⟩
          split at h
          case isTrue hd => exact Or.inl ⟨by simpa using hd, (Except.ok.inj h).symm⟩
          case isFalse hd => exact Or.inr ⟨by simpa using hd, (Except.ok.inj h).symm⟩
      case isFalse => simp at h
  case isFalse => simp at h

theorem review_task_error_of_not_in_queue {st : TaskManager} {r : Nat}
    (c : String) (now : Nat) (b : Bool)
    (h : r ∉ st.review_queue) :
    review_task st r c now b = .error .reviewNotInQueue := by
  simp [review_task, h]

theorem review_task_error_of_assigned {st : TaskManager} {r : Nat} {rv : ReviewTask}
    {x : String} (c : String) (now : Nat) (b : Bool)
    (hq : r ∈ st.review_queue)
    (hg : mapGet st.review_tasks r = some rv)
    (ha : rv.reviewed_by = some x) :
    review_task st r c now b = .error .reviewAlreadyAssigned := by
  simp [review_task, hq, hg, ha]

/-! ### Reachable-state invariants -/

/-- Unfolded form of `add_task`. -/
theorem add_task_spec (st : TaskManager) (url : String) :
    add_task st url =
      ({ st with
           tasks := mapInsert st.tasks st.task_counter
             ⟨url, [], none, none, none, none, false⟩,
           task_queue := st.task_queue ++ [st.task_counter],
           task_counter := st.task_counter + 1 },
       st.task_counter) := rfl

/-- Invariants maintained by every operation: the review-store key list is
exactly `[0, 1, ..., len-1]`; `review_counter` never exceeds the
review-store size; the task queue is duplicate-free and only holds ids
below `task_counter`.  (No such discipline holds for the review queue,
which is the point of several findings below.) -/
structure Inv (st : TaskManager) : Prop where
  review_keys : st.review_tasks.map Prod.fst = List.range st.review_tasks.length
  counter_le : st.review_counter ≤ st.review_tasks.length
  tq_nodup : st.task_queue.Nodup
  tq_lt : ∀ t ∈ st.task_queue, t < st.task_counter

theorem inv_init (acct : String) :
    Inv ⟨[], [], [], [], 0, 0, acct, []⟩ := by
  refine ⟨?_, ?_, ?_, ?_⟩ <;> simp

theorem inv_add_task {st : TaskManager} (url : String) (hI : Inv st) :
    Inv (add_task st url).1 := by
  obtain ⟨h1, h2, h3, h4⟩ := hI
  rw [add_task_spec]
  refine ⟨h1, h2, ?_, ?_⟩ <;> dsimp only
  · have : st.task_counter ∉ st.task_queue := fun hm => lt_irrefl _ (h4 _ hm)
    simp [List.nodup_append, h3, this]
  · intro t ht
    rcases List.mem_append.mp ht with hm | hm
    · exact Nat.lt_succ_of_lt (h4 _ hm)
    · simp at hm; omega

/-- Key facts about inserting at a key `k ≤ len` into a review store whose
keys are `[0, ..., len-1]`: the key list stays an initial range and the
length grows only when `k = len`. -/
theorem insert_range_keys {m : AssocMap ReviewTask} {k : Nat} (v : ReviewTask)
    (hkeys : m.map Prod.fst = List.range m.length) (hk : k ≤ m.length) :
    (mapInsert m k v).map Prod.fst = List.range (mapInsert m k v).length ∧
      (k < m.length → (mapInsert m k v).length = m.length) ∧
      (k = m.length → (mapInsert m k v).length = m.length + 1) := by
  by_cases hc : k < m.length
  · have hmem : k ∈ m.map Prod.fst := by
      rw [hkeys]; exact List.mem_range.mpr hc
    have hlen : (mapInsert m k v).length = m.length := by
      have := mapLen_mapInsert_of_mem v hmem
      simpa [mapLen] using this
    refine ⟨?_, fun _ => hlen, fun he => absurd he (Nat.ne_of_lt hc)⟩
    rw [mapInsert_keys_of_mem v hmem, hkeys, hlen]
  · have he : k = m.length := Nat.le_antisymm hk (Nat.le_of_not_lt hc)
    have hmem : k ∉ m.map Prod.fst := by
      rw [hkeys, List.mem_range]; omega
    have hlen : (mapInsert m k v).length = m.length + 1 := by
      have := mapLen_mapInsert_of_not_mem v hmem
      simpa [mapLen] using this
    refine ⟨?_, fun hlt => absurd hlt hc, fun _ => hlen⟩
    rw [mapInsert_keys_of_not_mem v hmem, hkeys, hlen, he, List.range_succ]

theorem inv_assign {st st' : TaskManager} {id : Nat} {w : String} {now : Nat}
    (hI : Inv st) (h : assign_task st id w now = .ok st') : Inv st' := by
  obtain ⟨task, hq, hg, ha, hst⟩ := assign_task_ok h
  obtain ⟨h1, h2, h3, h4⟩ := hI
  subst hst
  obtain ⟨hk, hlt, heq⟩ :=
    insert_range_keys (m := st.review_tasks) (k := st.review_counter)
      ⟨id, none, none, false⟩ h1 h2
  refine ⟨hk, ?_, ?_, ?_⟩ <;> dsimp only
  · by_cases hc : st.review_counter < st.review_tasks.length
    · rw [hlt hc]; omega
    · have : st.review_counter = st.review_tasks.length := by omega
      rw [heq this]; omega
  · exact h3.erase id
  · intro t ht
    exact h4 _ (List.mem_of_mem_erase ht)

theorem inv_submit {st st' : TaskManager} {caller : String} {id : Nat}
    {descs : List (Option String)}
    (hI : Inv st) (h : submit_task st caller id descs = .ok st') : Inv st' := by
  obtain ⟨task, hg, ha, hc, hst⟩ := submit_task_ok h
  obtain ⟨h1, h2, h3, h4⟩ := hI
  subst hst
  obtain ⟨hk, _, heq⟩ :=
    insert_range_keys (m := st.review_tasks) (k := mapLen st.review_tasks)
      ⟨id, none, none, false⟩ h1 (le_of_eq rfl)
  refine ⟨hk, ?_, h3, h4⟩
  dsimp only
  rw [heq rfl]
  omega

theorem inv_assign_review {st st' : TaskManager} {r : Nat} {w : String} {now : Nat}
    (hI : Inv st) (h : assign_review_task st r w now = .ok st') : Inv st' := by
  obtain ⟨rv, hq, hg, hst⟩ := assign_review_task_ok h
  obtain ⟨h1, h2, h3, h4⟩ := hI
  subst hst
  have hmem : r ∈ st.review_tasks.map Prod.fst := mapGet_some_key_mem hg
  have hlen : (mapInsert st.review_tasks r
      { rv with reviewed_by := some w, reviewed_at := some now }).length =
      st.review_tasks.length := by
    have := mapLen_mapInsert_of_mem (m := st.review_tasks)
      { rv with reviewed_by := some w, reviewed_at := some now } hmem
    simpa [mapLen] using this
  refine ⟨?_, ?_, h3, h4⟩ <;> dsimp only
  · rw [mapInsert_keys_of_mem _ hmem, h1, hlen]
  · rw [hlen]; exact h2

/-- Double insert at an existing key keeps the key list and length. -/
theorem insert_insert_keys {m : AssocMap ReviewTask} {r : Nat}
    (v1 v2 : ReviewTask) (hmem : r ∈ m.map Prod.fst) :
    (mapInsert (mapInsert m r v1) r v2).map Prod.fst = m.map Prod.fst ∧
      (mapInsert (mapInsert m r v1) r v2).length = m.length := by
  have hk1 : (mapInsert m r v1).map Prod.fst = m.map Prod.fst :=
    mapInsert_keys_of_mem v1 hmem
  have hmem1 : r ∈ (mapInsert m r v1).map Prod.fst := by rw [hk1]; exact hmem
  have hk2 := mapInsert_keys_of_mem v2 hmem1
  have hl1 : (mapInsert m r v1).length = m.length := by
    have := mapLen_mapInsert_of_mem v1 hmem; simpa [mapLen] using this
  have hl2 : (mapInsert (mapInsert m r v1) r v2).length = (mapInsert m r v1).length := by
    have := mapLen_mapInsert_of_mem v2 hmem1; simpa [mapLen] using this
  exact ⟨by rw [hk2, hk1], by rw [hl2, hl1]⟩

theorem inv_adjudicate {st st' : TaskManager} {r : Nat} {c : String} {now : Nat}
    {b : Bool} (hI : Inv st) (h : review_task st r c now b = .ok st') : Inv st' := by
  obtain ⟨rv, hq, hg, ha, task, ht, hbr⟩ := review_task_ok h
  obtain ⟨h1, h2, h3, h4⟩ := hI
  have hmem : r ∈ st.review_tasks.map Prod.fst := mapGet_some_key_mem hg
  rcases hbr with ⟨_, hst⟩ | ⟨_, hst⟩ <;> subst hst <;>
    obtain ⟨hk, hl⟩ := insert_insert_keys (m := st.review_tasks) (r := r) _ _ hmem <;>
    exact ⟨by dsimp only; rw [hk, hl, h1], by dsimp only; rw [hl]; exact h2, h3, h4⟩

theorem reachable_inv {st : TaskManager} (h : Reachable st) : Inv st := by
  induction h with
  | init acct => exact inv_init acct
  | publish hr he ih =>
    rename_i stp stc url id
    have h2 := inv_add_task url ih
    rw [he] at h2
    exact h2
  | assign hr he ih => exact inv_assign ih he
  | submit hr he ih => exact inv_submit ih he
  | assignReview hr he ih => exact inv_assign_review ih he
  | adjudicate hr he ih => exact inv_adjudicate ih he

/-! ### Concrete scenario states

The states below replay the spec's §8 scenarios against the code.  Every
state is defined by running the operations themselves (for the fallible
ones, extracting the successful result), so each `Reachable` step and each
evaluation below is checked by the kernel. -/

/-- Freshly deployed contract, payout account `"treasury"`. -/
def st0 : TaskManager := ⟨[], [], [], [], 0, 0, "treasury", []⟩

/-- After `publish("img1")`, which allocates task id 0. -/
def stA : TaskManager := (add_task st0 "img1").1

/-- After `assign_task(0, "alice")` at time 5 (which also mints review
task 0). -/
def stB : TaskManager := (assign_task stA 0 "alice" 5).toOption.getD st0

/-- After adjudicating the (unassigned, still queued) review 0 at `stB`
with `accept = true`: the accept branch runs and transfers the payout. -/
def stB2 : TaskManager := (review_task stB 0 "bob" 7 true).toOption.getD st0

/-- After `submit_task(0, ["done"])` by alice at `stB` (mints review
task 1). -/
def stC : TaskManager :=
  (submit_task stB "alice" 0 [some "done", none, none, none]).toOption.getD st0

/-- After `assign_review_task(0, "bob")` at `stC` — the spec scenario's
state right before `adjudicate(0, false)`. -/
def stS4 : TaskManager := (assign_review_task stC 0 "bob" 6).toOption.getD st0

/-- After a second `publish("img2")` on `stA` (task id 1). -/
def stP2 : TaskManager := (add_task stA "img2").1

/-- After `assign_task(0, "alice")` at `stP2`. -/
def stQ : TaskManager := (assign_task stP2 0 "alice" 5).toOption.getD st0

/-- After `submit_task(0, ["d"])` by alice at `stQ` (mints review id 1 =
`review_tasks.len()`). -/
def stR : TaskManager :=
  (submit_task stQ "alice" 0 [some "d", none, none, none]).toOption.getD st0

/-- After `assign_task(1, "bob")` at `stR`: this mints review id
`review_counter = 1` a second time — the review queue becomes
`[0, 1, 1]`. -/
def stDup : TaskManager := (assign_task stR 1 "bob" 6).toOption.getD st0

/-- After `assign_review_task(1, "carol")` at `stDup`: review 1 now has a
reviewer set, yet its id is still in the review queue (the duplicate). -/
def stD : TaskManager := (assign_review_task stDup 1 "carol" 7).toOption.getD st0

/-- After `review_task(0, false)` at `stC`: the rejection branch runs
(review 0 is queued and unassigned; task 0's descriptions are not all
present). -/
def stCrej : TaskManager := (review_task stC 0 "bob" 7 false).toOption.getD st0

/-- After `assign_review_task(1, "dave")` at `stD`: the already-assigned
review 1 is silently re-assigned. -/
def stDd : TaskManager := (assign_review_task stD 1 "dave" 9).toOption.getD st0

theorem reachable_st0 : Reachable st0 := Reachable.init "treasury"

theorem reachable_stA : Reachable stA := Reachable.publish reachable_st0 rfl

theorem reachable_stB : Reachable stB :=
  Reachable.assign reachable_stA
    (rfl : assign_task stA 0 "alice" 5 = Except.ok stB)

theorem reachable_stC : Reachable stC :=
  Reachable.submit reachable_stB
    (rfl : submit_task stB "alice" 0 [some "done", none, none, none] = Except.ok stC)

theorem reachable_stS4 : Reachable stS4 :=
  Reachable.assignReview reachable_stC
    (rfl : assign_review_task stC 0 "bob" 6 = Except.ok stS4)

theorem reachable_stP2 : Reachable stP2 := Reachable.publish reachable_stA rfl

theorem reachable_stQ : Reachable stQ :=
  Reachable.assign reachable_stP2
    (rfl : assign_task stP2 0 "alice" 5 = Except.ok stQ)

theorem reachable_stR : Reachable stR :=
  Reachable.submit reachable_stQ
    (rfl : submit_task stQ "alice" 0 [some "d", none, none, none] = Except.ok stR)

theorem reachable_stDup : Reachable stDup :=
  Reachable.assign reachable_stR
    (rfl : assign_task stR 1 "bob" 6 = Except.ok stDup)

theorem reachable_stD : Reachable stD :=
  Reachable.assignReview reachable_stDup
    (rfl : assign_review_task stDup 1 "carol" 7 = Except.ok stD)

/-! ### Claim theorems -/

/-- C1: the claim says `adjudicate(r, false)` makes the underlying task id
reappear in `taskQueueSnapshot()` exactly once, and that in the spec's
scenario (`publish("img1")`; `assign_task(0,"alice")`;
`submit_task(0,...)`; `assign_review_task(0,"bob")`;
`adjudicate(0,false)`) the task-queue snapshot is `[0]` and the review
queue empty.  The code diverges twice, which this theorem evaluates:
(1) in the scenario, `assign_review_task` removed review 0 from the review
queue and `review_task` requires queue membership, so the adjudication
aborts with "Review task not in queue", the task queue stays `[]` (not
`[0]`) and the review queue is `[1]` (not `[]`); (2) on a path where the
rejection branch does run (review 0 at `stC` is still queued and
unassigned, and task 0's descriptions are not all present), the code
re-queues the *review* id on the *review* queue (`[1, 0]`) and leaves the
task queue `[]` — `review_task` never pushes to the task queue. -/
theorem c1_adjudicate_reject_never_requeues_task :
    (review_task stS4 0 "bob" 7 false = .error .reviewNotInQueue ∧
      taskQueueSnapshot stS4 = [] ∧ taskQueueSnapshot stS4 ≠ [0] ∧
      get_review_queue stS4 = [1]) ∧
    (review_task stC 0 "bob" 7 false = .ok stCrej ∧
      taskQueueSnapshot stCrej = [] ∧ get_review_queue stCrej = [1, 0] ∧
      stCrej.transfers = []) :=
  ⟨⟨rfl, rfl, by decide, rfl⟩, rfl, rfl, rfl, rfl⟩

/-- C2: the claim says adjudicating a review whose `reviewed_by` is unset
fails with `NotReviewer` and issues no settlement call.  The code's check
is inverted: `review_task` *requires* `reviewed_by.is_none()`
(line 133), so at `stB` — where review 0 exists with no reviewer set and
is still queued — `adjudicate(0, true)` succeeds and issues the
settlement transfer. -/
theorem c2_adjudicate_unassigned_succeeds_and_settles :
    get_review_task stB 0 = some ⟨0, none, none, false⟩ ∧
    review_task stB 0 "bob" 7 true = .ok stB2 ∧
    stB2.transfers = [("treasury", payout_amount)] :=
  ⟨rfl, rfl, rfl⟩

/-- C3: every successful `assign_task(id, w)` sets the task's
`assigned_to`/`assigned_at`, removes `id` from the task queue, and also
inserts a brand-new `ReviewTask` record keyed by the current
`review_counter` — referencing `id`, with no reviewer set — and appends
that review id to the review queue, growing it by exactly 1 (lib.rs
lines 77-85), before any submission has happened. -/
theorem c3_assign_task_creates_review_task {st st' : TaskManager} {id : Nat}
    {w : String} {now : Nat} (h : assign_task st id w now = .ok st') :
    (∃ task, mapGet st.tasks id = some task ∧
       mapGet st'.tasks id =
         some { task with assigned_to := some w, assigned_at := some now }) ∧
    st'.task_queue = removeFirst st.task_queue id ∧
    mapGet st'.review_tasks st.review_counter = some ⟨id, none, none, false⟩ ∧
    st'.review_queue = st.review_queue ++ [st.review_counter] ∧
    get_review_queue_len st' = get_review_queue_len st + 1 ∧
    st'.review_counter = st.review_counter + 1 := by
  obtain ⟨task, hq, hg, ha, hst⟩ := assign_task_ok h
  subst hst
  exact ⟨⟨task, hg, mapGet_mapInsert_self _ _ _⟩, rfl,
    mapGet_mapInsert_self _ _ _, rfl, by simp [get_review_queue_len], rfl⟩

/-- C3 witness: the concrete `assign_task(0, "alice")` step from `stA` to
`stB`. -/
theorem c3_assign_task_creates_review_task_w :
    (∃ task, mapGet stA.tasks 0 = some task ∧
       mapGet stB.tasks 0 =
         some { task with assigned_to := some "alice", assigned_at := some 5 }) ∧
    stB.task_queue = removeFirst stA.task_queue 0 ∧
    mapGet stB.review_tasks stA.review_counter = some ⟨0, none, none, false⟩ ∧
    stB.review_queue = stA.review_queue ++ [stA.review_counter] ∧
    get_review_queue_len stB = get_review_queue_len stA + 1 ∧
    stB.review_counter = stA.review_counter + 1 :=
  @c3_assign_task_creates_review_task stA stB 0 "alice" 5 rfl

/-- C4: from any reachable state, every successful `submit_task` grows
`get_review_queue_len` by exactly 1 and mints a review id
(`review_tasks.len()`) that was never used for any `ReviewTask` before:
it is not among the existing keys, and the key list is extended by
exactly that id (keys are never removed by any operation, so the current
key list is the set of all ids ever used). -/
theorem c4_submit_fresh_review_id {st st' : TaskManager} {caller : String}
    {id : Nat} {descs : List (Option String)} (hr : Reachable st)
    (h : submit_task st caller id descs = .ok st') :
    get_review_queue_len st' = get_review_queue_len st + 1 ∧
    mapLen st.review_tasks ∉ st.review_tasks.map Prod.fst ∧
    mapGet st'.review_tasks (mapLen st.review_tasks) =
      some ⟨id, none, none, false⟩ ∧
    st'.review_tasks.map Prod.fst =
      st.review_tasks.map Prod.fst ++ [mapLen st.review_tasks] ∧
    st'.review_queue = st.review_queue ++ [mapLen st.review_tasks] := by
  obtain ⟨task, hg, ha, hc, hst⟩ := submit_task_ok h
  have hmem : mapLen st.review_tasks ∉ st.review_tasks.map Prod.fst := by
    rw [(reachable_inv hr).review_keys]
    simp [mapLen]
  subst hst
  exact ⟨by simp [get_review_queue_len], hmem, mapGet_mapInsert_self _ _ _,
    mapInsert_keys_of_not_mem _ hmem, rfl⟩

/-- C4 witness: the concrete `submit_task(0, ["done"])` step from `stB`
to `stC` (fresh review id 1). -/
theorem c4_submit_fresh_review_id_w :
    get_review_queue_len stC = get_review_queue_len stB + 1 ∧
    mapLen stB.review_tasks ∉ stB.review_tasks.map Prod.fst ∧
    mapGet stC.review_tasks (mapLen stB.review_tasks) =
      some ⟨0, none, none, false⟩ ∧
    stC.review_tasks.map Prod.fst =
      stB.review_tasks.map Prod.fst ++ [mapLen stB.review_tasks] ∧
    stC.review_queue = stB.review_queue ++ [mapLen stB.review_tasks] :=
  @c4_submit_fresh_review_id stB stC "alice" 0 [some "done", none, none, none]
    reachable_stB rfl

/-- C5 counterexample: at the reachable state `stD` (publish ×2; assign 0;
submit 0; assign 1 — which duplicates review id 1 in the review queue —
then `assign_review_task(1, "carol")`), review 1 has `reviewed_by =
some "carol"` *and* is still present in the review queue; the claim says
`assign_review_task(1, "dave")` must now fail with `AlreadyAssigned` and
change nothing, but the call succeeds and overwrites the reviewer. -/
theorem c5_cex :
    Reachable stD ∧
    get_review_task stD 1 = some ⟨1, some "carol", some 7, false⟩ ∧
    1 ∈ stD.review_queue ∧
    assign_review_task stD 1 "dave" 9 = .ok stDd ∧
    get_review_task stDd 1 = some ⟨1, some "dave", some 9, false⟩ :=
  ⟨reachable_stD, rfl, by decide, rfl, rfl⟩

/-- C5 amended: `assign_review_task` performs no `reviewed_by` check at
all: whenever the review id is in the review queue and its record exists,
the call succeeds — even when a reviewer is already set — overwriting
`reviewed_by`/`reviewed_at` and removing the id's first occurrence from
the review queue; it fails only when the id is not queued. -/
theorem c5_assign_review_overwrites {st : TaskManager} {r : Nat}
    {rv : ReviewTask} (w : String) (now : Nat) (hq : r ∈ st.review_queue)
    (hg : mapGet st.review_tasks r = some rv) :
    assign_review_task st r w now =
      .ok { st with
              review_tasks := mapInsert st.review_tasks r
                { rv with reviewed_by := some w, reviewed_at := some now },
              review_queue := removeFirst st.review_queue r } := by
  simp [assign_review_task, hq, hg]

/-- C5 witness: the amended statement applied at `stD`, where review 1
already has reviewer `"carol"` yet `assign_review_task(1, "dave")`
succeeds. -/
theorem c5_assign_review_overwrites_w :
    assign_review_task stD 1 "dave" 9 =
      .ok { stD with
              review_tasks := mapInsert stD.review_tasks 1
                ⟨1, some "dave", some 9, false⟩,
              review_queue := removeFirst stD.review_queue 1 } :=
  @c5_assign_review_overwrites stD 1 ⟨1, some "carol", some 7, false⟩
    "dave" 9 (by decide) rfl

/-- C6 counterexample: the claim says the second of two
`adjudicate(reviewId, true)` calls yields `AlreadyAdjudicated`.  The code
has no such error: at `stB`, the first call on review 0 succeeds (accept
branch, one transfer) and removes 0 from the review queue, so the second
call aborts with the queue-membership error "Review task not in queue"
instead. -/
theorem c6_cex :
    review_task stB 0 "bob" 7 true = .ok stB2 ∧
    stB2.transfers.length = 1 ∧
    review_task stB2 0 "carol" 8 true = .error .reviewNotInQueue :=
  ⟨rfl, rfl, rfl⟩

/-- C6 amended: after a successful `adjudicate(r, true)`, a second
`adjudicate(r, true)` always fails — with the not-in-queue error when the
review was accepted and removed, or the already-assigned error when its id
is still (or again) queued — never with an `AlreadyAdjudicated` error,
which does not exist in the code; the settlement transfer is issued at
most once across the two calls. -/
theorem c6_second_adjudicate_always_fails {st st' : TaskManager} {r : Nat}
    {c : String} {now : Nat} (c2 : String) (now2 : Nat)
    (h : review_task st r c now true = .ok st') :
    (∃ e, review_task st' r c2 now2 true = .error e) ∧
    st'.transfers.length ≤ st.transfers.length + 1 := by
  obtain ⟨rv, hq, hg, ha, task, ht, hbr⟩ := review_task_ok h
  rcases hbr with ⟨hd, hst⟩ | ⟨hd, hst⟩ <;> subst hst
  · refine ⟨?_, by simp⟩
    by_cases hm : r ∈ removeFirst st.review_queue r
    · exact ⟨.reviewAlreadyAssigned,
        review_task_error_of_assigned c2 now2 true hm
          (mapGet_mapInsert_self _ _ _) rfl⟩
    · exact ⟨.reviewNotInQueue,
        review_task_error_of_not_in_queue c2 now2 true hm⟩
  · refine ⟨?_, by simp⟩
    have hm : r ∈ removeFirst st.review_queue r ++ [r] := by simp
    exact ⟨.reviewAlreadyAssigned,
      review_task_error_of_assigned c2 now2 true hm
        (mapGet_mapInsert_self _ _ _) rfl⟩

/-- C6 witness: the amended statement at the concrete accept-path pair of
calls from `c6_cex`. -/
theorem c6_second_adjudicate_always_fails_w :
    (∃ e, review_task stB2 0 "carol" 8 true = .error e) ∧
    stB2.transfers.length ≤ stB.transfers.length + 1 :=
  @c6_second_adjudicate_always_fails stB stB2 0 "bob" 7 "carol" 8 rfl

/-- C7 counterexample: the claim says no queue ever holds the same id
twice in any reachable state.  The review queue can: after
publish("img1"); publish("img2"); assign 0; submit 0 (minting review id
1 = `review_tasks.len()`); assign 1 (minting review id `review_counter =
1` again), the review queue is `[0, 1, 1]`. -/
theorem c7_cex :
    Reachable stDup ∧ get_review_queue stDup = [0, 1, 1] ∧
    ¬ (get_review_queue stDup).Nodup :=
  ⟨reachable_stDup, rfl, by decide⟩

/-- C7 amended: the duplicate-freedom the claim states holds for the task
queue only — in every reachable state `taskQueueSnapshot` is
duplicate-free (the review queue is not, see the counterexample). -/
theorem c7_task_queue_nodup {st : TaskManager} (h : Reachable st) :
    (taskQueueSnapshot st).Nodup :=
  (reachable_inv h).tq_nodup

/-- C7 witness: the task queue of the one-task state `stA` is
duplicate-free. -/
theorem c7_task_queue_nodup_w : (taskQueueSnapshot stA).Nodup :=
  c7_task_queue_nodup reachable_stA

/-- C8 counterexample: the claim says a second `assign_task` on an
already-assigned task fails with `AlreadyAssigned`.  At `stB` task 0 is
assigned to alice, but the second call fails with "Task not in queue"
(the queue-membership check at line 70 fires first, and an assigned task
has left the queue), not "Task already assigned". -/
theorem c8_cex :
    get_task stB 0 =
      some ⟨"img1", [], some "alice", some 5, none, none, false⟩ ∧
    assign_task stB 0 "bob" 9 = .error .taskNotInQueue ∧
    Err.taskNotInQueue ≠ Err.taskAlreadyAssigned :=
  ⟨rfl, rfl, by decide⟩

/-- C8 amended: after a successful `assign_task(id, w)` from a reachable
state, `id` is no longer in `taskQueueSnapshot()`, and a second
`assign_task(id, w2)` by any worker fails with `NotQueued` (the
queue-membership check precedes the already-assigned check). -/
theorem c8_second_assign_fails_not_queued {st st' : TaskManager} {id : Nat}
    {w : String} {now : Nat} (hr : Reachable st)
    (h : assign_task st id w now = .ok st') :
    id ∉ taskQueueSnapshot st' ∧
    ∀ w2 now2, assign_task st' id w2 now2 = .error .taskNotInQueue := by
  obtain ⟨task, hq, hg, ha, hst⟩ := assign_task_ok h
  have hnd := (reachable_inv hr).tq_nodup
  have hnm : id ∉ st'.task_queue := by
    subst hst
    exact hnd.not_mem_erase
  exact ⟨hnm, fun w2 now2 => assign_task_error_of_not_queued w2 now2 hnm⟩

/-- C8 witness: the amended statement at the concrete step `stA → stB`
(task 0 assigned to alice), with a concrete second caller. -/
theorem c8_second_assign_fails_not_queued_w :
    0 ∉ taskQueueSnapshot stB ∧
    assign_task stB 0 "w2" 10 = .error .taskNotInQueue :=
  ⟨(@c8_second_assign_fails_not_queued stA stB 0 "alice" 5 reachable_stA rfl).1,
   (@c8_second_assign_fails_not_queued stA stB 0 "alice" 5 reachable_stA rfl).2
     "w2" 10⟩

/-- C9: `assign_task` on an id not in the task queue fails with
`NotQueued`.  In this embedding a panic is the aborted NEAR transaction —
the call produces an `.error` and no successor state at all, so no Task
record, queue, ReviewTask record or counter is mutated by the failing
call (the all-or-nothing part of the claim). -/
theorem c9_assign_unqueued_fails {st : TaskManager} {id : Nat}
    (w : String) (now : Nat) (h : id ∉ taskQueueSnapshot st) :
    assign_task st id w now = .error .taskNotInQueue :=
  assign_task_error_of_not_queued w now h

/-- C9 witness: id 3 is not queued at `stA`, and assigning it fails with
the not-queued error. -/
theorem c9_assign_unqueued_fails_w :
    3 ∉ taskQueueSnapshot stA ∧
    assign_task stA 3 "w" 1 = .error .taskNotInQueue :=
  ⟨by decide, c9_assign_unqueued_fails "w" 1 (by decide)⟩

/-- C10: the `is_accepted` argument of `review_task` is dead: the
adjudication result — resulting state, queues, review record and
settlement transfers alike — is identical for `accept = a` and
`accept = b` in every state, because the branch taken is decided solely by
`task.descriptions` (lib.rs line 139) and the parameter is never read. -/
theorem c10_adjudicate_ignores_accept_flag (st : TaskManager) (r : Nat)
    (c : String) (now : Nat) (a b : Bool) :
    review_task st r c now a = review_task st r c now b := rfl

end Contract
